import Mathlib

/-!
Shallow embedding of the genesis-state construction core of
consensus/state_processing/src/genesis.rs, together with the
external collaborators that it calls (deposit Merkle accumulator,
per-fork upgrade steps, deposit intake, active-validator query),
which are modelled from the specification because their sources are
outside this excerpt.  Machine integers (u64) are modelled as Nat
with explicit bounds where overflow matters; fallible Rust functions
returning Result are modelled with Except.
-/

/-- Width bound of a u64 quantity. -/
def U64_LIMIT : Nat := 2 ^ 64

/-- Arithmetic errors of the safe_arith crate: checked add/sub report
Overflow, checked rem reports DivisionByZero. -/
inductive ArithError where
  | Overflow
  | DivisionByZero
deriving DecidableEq

/-- Checked u64 addition: a.safe_add(b). -/
def safeAdd (a b : Nat) : Except ArithError Nat :=
  if a + b < U64_LIMIT then .ok (a + b) else .error .Overflow

/-- Checked u64 subtraction: a.safe_sub(b). -/
def safeSub (a b : Nat) : Except ArithError Nat :=
  if b ≤ a then .ok (a - b) else .error .Overflow

/-- Checked u64 remainder: a.safe_rem(b). -/
def safeRem (a b : Nat) : Except ArithError Nat :=
  if b = 0 then .error .DivisionByZero else .ok (a % b)

/-- Fixed depth of the deposit Merkle tree (types::DEPOSIT_TREE_DEPTH). -/
def DEPOSIT_TREE_DEPTH : Nat := 32

/-- Length of the randao mixes vector (EPOCHS_PER_HISTORICAL_VECTOR,
minimal preset). -/
def EPOCHS_PER_HISTORICAL_VECTOR : Nat := 64

/-- Genesis epoch: T::genesis_epoch() is the fixed epoch 0. -/
def genesisEpoch : Nat := 0

/-- Modelled from the spec: the opaque two-to-one hash primitive used by
the Merkle accumulator (the real implementation hashes 32-byte words; any
fixed deterministic function models it for the relational properties
proved here). -/
def hashCombine (a b : Nat) : Nat :=
  (2 * a + 3 * b + 1) % 2 ^ 256

/-- Zero subtree hashes of the Merkle tree, by level. -/
def zeroHashes : Nat → Nat
  | 0 => 0
  | n + 1 => hashCombine (zeroHashes n) (zeroHashes n)

/-- One level of Merkle hashing: combine leaves pairwise, padding an odd
tail with the zero hash of the current level. -/
def merkleLevelUp (z : Nat) : List Nat → List Nat
  | [] => []
  | [a] => [hashCombine a z]
  | a :: b :: rest => hashCombine a b :: merkleLevelUp z rest

/-- Merkle root of a leaf list under a tree of the given remaining depth,
starting at the given level (empty lists give the zero subtree hash). -/
def merkleRootAux : Nat → Nat → List Nat → Nat
  | 0, lvl, leaves => leaves.headD (zeroHashes lvl)
  | d + 1, lvl, leaves => merkleRootAux d (lvl + 1) (merkleLevelUp (zeroHashes lvl) leaves)

/-- Errors of the deposit Merkle accumulator. -/
inductive MerkleTreeError where
  | MerkleTreeFull
deriving DecidableEq

/-- Modelled from the spec: the append-only fixed-depth deposit Merkle
accumulator (crate::common::DepositDataTree), represented by its ordered
leaf list and depth. -/
structure DepositDataTree where
  leaves : List Nat
  depth : Nat
deriving DecidableEq

/-- Modelled from the spec: DepositDataTree::create(leaves, count, depth). -/
def DepositDataTree.create (leaves : List Nat) (_count : Nat) (depth : Nat) :
    DepositDataTree :=
  { leaves := leaves, depth := depth }

/-- Modelled from the spec: push one leaf, failing with a capacity error
when the tree is already full. -/
def DepositDataTree.push_leaf (t : DepositDataTree) (leaf : Nat) :
    Except MerkleTreeError DepositDataTree :=
  if t.leaves.length < 2 ^ t.depth then
    .ok { t with leaves := t.leaves ++ [leaf] }
  else
    .error .MerkleTreeFull

/-- Modelled from the spec: current Merkle root of the accumulator. -/
def DepositDataTree.root (t : DepositDataTree) : Nat :=
  merkleRootAux t.depth 0 t.leaves

/-- Fork marker of the state: previous version, current version, epoch. -/
structure Fork where
  previous_version : Nat
  current_version : Nat
  epoch : Nat
deriving DecidableEq

/-- Anchor record of the external chain (genesis.rs lines 22 to 27):
deposit commitment root, deposit count, anchor block hash. -/
structure Eth1Data where
  deposit_root : Nat
  deposit_count : Nat
  block_hash : Nat
deriving DecidableEq

/-- Validator record: the fields this core reads and writes. -/
structure Validator where
  pubkey : Nat
  withdrawal_credentials : Nat
  effective_balance : Nat
  activation_eligibility_epoch : Nat
  activation_epoch : Nat
  exit_epoch : Nat
deriving DecidableEq

/-- Deposit data carried by one deposit. -/
structure DepositData where
  pubkey : Nat
  withdrawal_credentials : Nat
  amount : Nat
  signature : Nat
deriving DecidableEq

/-- One deposit input item. -/
structure Deposit where
  proof : List Nat
  data : DepositData
deriving DecidableEq

/-- Version-tagged shape of the state (the BeaconState enum variant):
base, Altair, Merge, Capella or Deneb; the post-merge variants carry the
latest execution payload header content. -/
inductive StateShape where
  | base
  | altair
  | merge (header : Nat)
  | capella (header : Nat)
  | deneb (header : Nat)
deriving DecidableEq

/-- Fork names, in the fixed chronological order of the upgrade chain. -/
inductive ForkName where
  | base
  | altair
  | merge
  | capella
  | deneb
deriving DecidableEq

/-- Variant name of a version-tagged state shape. -/
def shapeForkName : StateShape → ForkName
  | .base => .base
  | .altair => .altair
  | .merge _ => .merge
  | .capella _ => .capella
  | .deneb _ => .deneb

/-- Version-tagged execution payload header override variants. -/
inductive ExecutionPayloadHeader where
  | merge (header : Nat)
  | capella (header : Nat)
  | deneb (header : Nat)
deriving DecidableEq

/-- Configuration (ChainSpec): per-fork activation epochs and version
identifiers, thresholds, increments, genesis delay. Read-only. -/
structure ChainSpec where
  genesis_fork_version : Nat
  altair_fork_version : Nat
  bellatrix_fork_version : Nat
  capella_fork_version : Nat
  deneb_fork_version : Nat
  altair_fork_epoch : Option Nat
  bellatrix_fork_epoch : Option Nat
  capella_fork_epoch : Option Nat
  deneb_fork_epoch : Option Nat
  genesis_delay : Nat
  min_genesis_time : Nat
  min_genesis_active_validator_count : Nat
  effective_balance_increment : Nat
  max_effective_balance : Nat
  far_future_epoch : Nat
deriving DecidableEq

/-- The central state under construction. Version-variant fields are in
the tagged shape; the other fields are those this core touches. -/
structure BeaconState where
  genesis_time : Nat
  eth1_data : Eth1Data
  randao_mixes : List Nat
  validators : List Validator
  balances : List Nat
  fork : Fork
  shape : StateShape
  genesis_validators_root : Nat
deriving DecidableEq

/-- Errors of the state container (types::Error): the variants this core
can produce. -/
inductive Error where
  | BalancesOutOfBounds (index : Nat)
  | IncorrectStateVariant
  | ArithError (e : ArithError)
deriving DecidableEq

/-- Block processing errors surfaced by genesis construction. -/
inductive BlockProcessingError where
  | BeaconStateError (e : Error)
  | MerkleTreeError (e : MerkleTreeError)
  | ArithError (e : ArithError)
  | DepositProcessingFailed
deriving DecidableEq

/-- Fork marker installed at construction: both versions are the genesis
fork version and the epoch is the genesis epoch. -/
def initialFork (spec : ChainSpec) : Fork :=
  { previous_version := spec.genesis_fork_version
    current_version := spec.genesis_fork_version
    epoch := genesisEpoch }

/-- Modelled from the spec: BeaconState::new(genesis_time, eth1_data, spec)
builds a base-shaped state with empty validator and balance lists, zeroed
randao mixes and the construction fork marker. -/
def BeaconState.new (genesis_time : Nat) (eth1_data : Eth1Data)
    (spec : ChainSpec) : BeaconState :=
  { genesis_time := genesis_time
    eth1_data := eth1_data
    randao_mixes := List.replicate EPOCHS_PER_HISTORICAL_VECTOR 0
    validators := []
    balances := []
    fork := initialFork spec
    shape := .base
    genesis_validators_root := 0 }

/-- Modelled from the spec: fill_randao_mixes_with seeds every randao slot
with the anchor block hash. -/
def BeaconState.fill_randao_mixes_with (s : BeaconState) (h : Nat) :
    BeaconState :=
  { s with randao_mixes := List.replicate EPOCHS_PER_HISTORICAL_VECTOR h }

/-- Modelled from the spec: the opaque commitment of one deposit record
(deposit.data.tree_hash_root()). -/
def depositDataRoot (d : DepositData) : Nat :=
  hashCombine (hashCombine (hashCombine d.pubkey d.withdrawal_credentials) d.amount) d.signature

/-- Modelled from the spec: a fresh validator record created by deposit
intake for a first deposit of a credential; activation epochs start at
the far-future sentinel. -/
def newValidator (spec : ChainSpec) (d : DepositData) : Validator :=
  { pubkey := d.pubkey
    withdrawal_credentials := d.withdrawal_credentials
    effective_balance :=
      min (d.amount - d.amount % spec.effective_balance_increment) spec.max_effective_balance
    activation_eligibility_epoch := spec.far_future_epoch
    activation_epoch := spec.far_future_epoch
    exit_epoch := spec.far_future_epoch }

/-- Modelled from the spec: the deposit intake collaborator
(process_deposit with the skip-proof flag): creates a new validator for a
first deposit of a credential, or increases an existing validator balance;
it mutates only validator and balance state and may fail. -/
def process_deposit (state : BeaconState) (deposit : Deposit)
    (spec : ChainSpec) (_skip_proof : Bool) :
    Except BlockProcessingError BeaconState :=
  match state.validators.findIdx? (fun v => v.pubkey == deposit.data.pubkey) with
  | some i =>
    match safeAdd ((state.balances.get? i).getD 0) deposit.data.amount with
    | .ok b => .ok { state with balances := state.balances.set i b }
    | .error e => .error (.ArithError e)
  | none =>
    .ok { state with
          validators := state.validators ++ [newValidator spec deposit.data]
          balances := state.balances ++ [deposit.data.amount] }

/-- Returns state.genesis_time for the given eth1 timestamp
(genesis.rs lines 160 to 162): checked addition of the genesis delay. -/
def eth2_genesis_time (eth1_timestamp : Nat) (spec : ChainSpec) :
    Except ArithError Nat :=
  safeAdd eth1_timestamp spec.genesis_delay

/-- Body of the activation pass (genesis.rs lines 138 to 151): walk the
validator list by index, read the aligned balance (bounds error when
missing), quantize the effective balance with checked arithmetic, and mark
maximally funded validators active at genesis. -/
def activateValidators (spec : ChainSpec) (balances : List Nat) :
    Nat → List Validator → Except Error (List Validator)
  | _, [] => .ok []
  | index, v :: rest =>
    match balances.get? index with
    | none => .error (.BalancesOutOfBounds index)
    | some balance =>
      match safeRem balance spec.effective_balance_increment with
      | .error e => .error (.ArithError e)
      | .ok r =>
        match safeSub balance r with
        | .error e => .error (.ArithError e)
        | .ok q =>
          let eb := min q spec.max_effective_balance
          let v1 :=
            if eb = spec.max_effective_balance then
              { v with effective_balance := eb
                       activation_eligibility_epoch := genesisEpoch
                       activation_epoch := genesisEpoch }
            else
              { v with effective_balance := eb }
          match activateValidators spec balances (index + 1) rest with
          | .error e => .error e
          | .ok rest1 => .ok (v1 :: rest1)

/-- Activate genesis validators (genesis.rs lines 133 to 153). -/
def process_activations (state : BeaconState) (spec : ChainSpec) :
    Except Error BeaconState :=
  match activateValidators spec state.balances 0 state.validators with
  | .error e => .error e
  | .ok vs => .ok { state with validators := vs }

/-- True when a validator is active at the epoch: activation reached and
exit not reached. -/
def is_active_validator (v : Validator) (epoch : Nat) : Bool :=
  v.activation_epoch ≤ epoch && epoch < v.exit_epoch

/-- Modelled from the spec: the delegated active-validator query
(state.get_active_validator_indices), whose signature allows failure. -/
def get_active_validator_indices (state : BeaconState) (epoch : Nat)
    (_spec : ChainSpec) : Except Error (List Nat) :=
  .ok (state.validators.enum.filterMap
    (fun p => if is_active_validator p.2 epoch then some p.1 else none))

/-- Decision core of the validity predicate: map_or(false, ...) over the
result of the active-validator query (genesis.rs lines 123 to 130). -/
def is_valid_genesis_state_core (active : Except Error (List Nat))
    (genesis_time : Nat) (spec : ChainSpec) : Bool :=
  match active with
  | .error _ => false
  | .ok ls =>
    decide (spec.min_genesis_time ≤ genesis_time) &&
      decide (spec.min_genesis_active_validator_count ≤ ls.length)

/-- Determine whether a candidate genesis state is suitable for starting
the chain (genesis.rs lines 123 to 130). -/
def is_valid_genesis_state (state : BeaconState) (spec : ChainSpec) : Bool :=
  is_valid_genesis_state_core
    (get_active_validator_indices state genesisEpoch spec)
    state.genesis_time spec

/-- Modelled from the spec: upgrade_to_altair reshapes a base-shaped state
to the Altair shape and advances the fork marker (previous version becomes
the old current version); applied to any other shape it fails, since each
upgrade step assumes the immediately preceding fork shape. -/
def upgrade_to_altair (s : BeaconState) (spec : ChainSpec) :
    Except BlockProcessingError BeaconState :=
  match s.shape with
  | .base =>
    .ok { s with shape := .altair
                 fork := { previous_version := s.fork.current_version
                           current_version := spec.altair_fork_version
                           epoch := genesisEpoch } }
  | _ => .error (.BeaconStateError .IncorrectStateVariant)

/-- Modelled from the spec: upgrade_to_bellatrix reshapes an Altair-shaped
state to the Merge shape with a default (zero) execution payload header
and advances the fork marker. -/
def upgrade_to_bellatrix (s : BeaconState) (spec : ChainSpec) :
    Except BlockProcessingError BeaconState :=
  match s.shape with
  | .altair =>
    .ok { s with shape := .merge 0
                 fork := { previous_version := s.fork.current_version
                           current_version := spec.bellatrix_fork_version
                           epoch := genesisEpoch } }
  | _ => .error (.BeaconStateError .IncorrectStateVariant)

/-- Modelled from the spec: upgrade_to_capella reshapes a Merge-shaped
state to the Capella shape, carrying the execution payload header content
across, and advances the fork marker. -/
def upgrade_to_capella (s : BeaconState) (spec : ChainSpec) :
    Except BlockProcessingError BeaconState :=
  match s.shape with
  | .merge h =>
    .ok { s with shape := .capella h
                 fork := { previous_version := s.fork.current_version
                           current_version := spec.capella_fork_version
                           epoch := genesisEpoch } }
  | _ => .error (.BeaconStateError .IncorrectStateVariant)

/-- Modelled from the spec: upgrade_to_deneb reshapes a Capella-shaped
state to the Deneb shape, carrying the execution payload header content
across, and advances the fork marker. -/
def upgrade_to_deneb (s : BeaconState) (spec : ChainSpec) :
    Except BlockProcessingError BeaconState :=
  match s.shape with
  | .capella h =>
    .ok { s with shape := .deneb h
                 fork := { previous_version := s.fork.current_version
                           current_version := spec.deneb_fork_version
                           epoch := genesisEpoch } }
  | _ => .error (.BeaconStateError .IncorrectStateVariant)

/-- The map_or(false, fork_epoch == genesis_epoch) test guarding each
upgrade step. -/
def forkAtGenesis (e : Option Nat) : Bool :=
  match e with
  | none => false
  | some ep => ep == genesisEpoch

/-- Overwrite of the fork marker after an upgrade applied at genesis:
state.fork_mut().previous_version = v. -/
def setPreviousVersion (s : BeaconState) (v : Nat) : BeaconState :=
  { s with fork := { s.fork with previous_version := v } }

/-- Accessor latest_execution_payload_header_merge_mut: writing the header
content requires the Merge shape, else IncorrectStateVariant. -/
def setExecutionHeaderMerge (s : BeaconState) (h : Nat) :
    Except BlockProcessingError BeaconState :=
  match s.shape with
  | .merge _ => .ok { s with shape := .merge h }
  | _ => .error (.BeaconStateError .IncorrectStateVariant)

/-- Accessor latest_execution_payload_header_capella_mut: writing the
header content requires the Capella shape, else IncorrectStateVariant. -/
def setExecutionHeaderCapella (s : BeaconState) (h : Nat) :
    Except BlockProcessingError BeaconState :=
  match s.shape with
  | .capella _ => .ok { s with shape := .capella h }
  | _ => .error (.BeaconStateError .IncorrectStateVariant)

/-- Accessor latest_execution_payload_header_deneb_mut: writing the header
content requires the Deneb shape, else IncorrectStateVariant. -/
def setExecutionHeaderDeneb (s : BeaconState) (h : Nat) :
    Except BlockProcessingError BeaconState :=
  match s.shape with
  | .deneb _ => .ok { s with shape := .deneb h }
  | _ => .error (.BeaconStateError .IncorrectStateVariant)

/-- Deposit loop of genesis construction (genesis.rs lines 35 to 41): for
each deposit in input order, push its commitment into the accumulator,
write the accumulator root into the anchor record, then invoke deposit
intake with proof checks skipped. -/
def applyDeposits (spec : ChainSpec) :
    BeaconState → DepositDataTree → List Deposit →
    Except BlockProcessingError (BeaconState × DepositDataTree)
  | s, t, [] => .ok (s, t)
  | s, t, d :: rest =>
    match t.push_leaf (depositDataRoot d.data) with
    | .error e => .error (.MerkleTreeError e)
    | .ok t1 =>
      let s1 := { s with eth1_data := { s.eth1_data with deposit_root := t1.root } }
      match process_deposit s1 d spec true with
      | .error e => .error e
      | .ok s2 => applyDeposits spec s2 t1 rest

/-- Observation of the deposit loop: the anchor record exactly as deposit
intake sees it when invoked for each deposit, in input order (truncated at
the first failing step, whose intake is never invoked). -/
def depositIntakeTrace (spec : ChainSpec) :
    BeaconState → DepositDataTree → List Deposit → List Eth1Data
  | _, _, [] => []
  | s, t, d :: rest =>
    match t.push_leaf (depositDataRoot d.data) with
    | .error _ => []
    | .ok t1 =>
      let s1 := { s with eth1_data := { s.eth1_data with deposit_root := t1.root } }
      s1.eth1_data ::
        match process_deposit s1 d spec true with
        | .error _ => []
        | .ok s2 => depositIntakeTrace spec s2 t1 rest

/-- First stage of genesis construction (genesis.rs lines 21 to 43):
genesis time, anchor record with temporary zero deposit root and the full
deposit count, randao seeding, the deposit loop, then the activation
pass. -/
def genesisCoreState (eth1_block_hash eth1_timestamp : Nat)
    (deposits : List Deposit) (spec : ChainSpec) :
    Except BlockProcessingError BeaconState :=
  match eth2_genesis_time eth1_timestamp spec with
  | .error e => .error (.ArithError e)
  | .ok genesis_time =>
    let eth1_data : Eth1Data :=
      { deposit_root := 0
        deposit_count := deposits.length
        block_hash := eth1_block_hash }
    let state0 := BeaconState.new genesis_time eth1_data spec
    let state1 := state0.fill_randao_mixes_with eth1_block_hash
    match applyDeposits spec state1 (DepositDataTree.create [] 0 DEPOSIT_TREE_DEPTH) deposits with
    | .error e => .error e
    | .ok (state2, _) =>
      match process_activations state2 spec with
      | .error e => .error (.BeaconStateError e)
      | .ok state3 => .ok state3

/-- Anchor records seen by deposit intake during a run of genesis
construction, in input order. -/
def initDepositTrace (eth1_block_hash eth1_timestamp : Nat)
    (deposits : List Deposit) (spec : ChainSpec) : List Eth1Data :=
  match eth2_genesis_time eth1_timestamp spec with
  | .error _ => []
  | .ok genesis_time =>
    let eth1_data : Eth1Data :=
      { deposit_root := 0
        deposit_count := deposits.length
        block_hash := eth1_block_hash }
    let state0 := BeaconState.new genesis_time eth1_data spec
    let state1 := state0.fill_randao_mixes_with eth1_block_hash
    depositIntakeTrace spec state1 (DepositDataTree.create [] 0 DEPOSIT_TREE_DEPTH) deposits

/-- Altair step of the upgrade chain (genesis.rs lines 52 to 59). -/
def altairStep (spec : ChainSpec) (s0 : BeaconState) :
    Except BlockProcessingError BeaconState :=
  if forkAtGenesis spec.altair_fork_epoch then
    match upgrade_to_altair s0 spec with
    | .error e => .error e
    | .ok s => .ok (setPreviousVersion s spec.altair_fork_version)
  else .ok s0

/-- Bellatrix step of the upgrade chain (genesis.rs lines 61 to 77),
including the Merge-shaped header override. -/
def bellatrixStep (execution_payload_header : Option ExecutionPayloadHeader)
    (spec : ChainSpec) (s0 : BeaconState) :
    Except BlockProcessingError BeaconState :=
  if forkAtGenesis spec.bellatrix_fork_epoch then
    match upgrade_to_bellatrix s0 spec with
    | .error e => .error e
    | .ok s =>
      let s1 := setPreviousVersion s spec.bellatrix_fork_version
      match execution_payload_header with
      | some (.merge h) => setExecutionHeaderMerge s1 h
      | _ => .ok s1
  else .ok s0

/-- Capella step of the upgrade chain (genesis.rs lines 79 to 94),
including the Capella-shaped header override. -/
def capellaStep (execution_payload_header : Option ExecutionPayloadHeader)
    (spec : ChainSpec) (s0 : BeaconState) :
    Except BlockProcessingError BeaconState :=
  if forkAtGenesis spec.capella_fork_epoch then
    match upgrade_to_capella s0 spec with
    | .error e => .error e
    | .ok s =>
      let s1 := setPreviousVersion s spec.capella_fork_version
      match execution_payload_header with
      | some (.capella h) => setExecutionHeaderCapella s1 h
      | _ => .ok s1
  else .ok s0

/-- Deneb step of the upgrade chain (genesis.rs lines 96 to 111),
including the Deneb-shaped header override. -/
def denebStep (execution_payload_header : Option ExecutionPayloadHeader)
    (spec : ChainSpec) (s0 : BeaconState) :
    Except BlockProcessingError BeaconState :=
  if forkAtGenesis spec.deneb_fork_epoch then
    match upgrade_to_deneb s0 spec with
    | .error e => .error e
    | .ok s =>
      let s1 := setPreviousVersion s spec.deneb_fork_version
      match execution_payload_header with
      | some (.deneb h) => setExecutionHeaderDeneb s1 h
      | _ => .ok s1
  else .ok s0

/-- Fork upgrade chain of genesis construction (genesis.rs lines 45 to
111): four conditional upgrade steps in fixed order, each gated on its
configured activation epoch equalling the genesis epoch, each collapsing
previous_version to its own fork version, the post-merge ones applying a
matching execution payload header override when supplied. -/
def applyUpgrades (execution_payload_header : Option ExecutionPayloadHeader)
    (spec : ChainSpec) (s0 : BeaconState) :
    Except BlockProcessingError BeaconState :=
  match altairStep spec s0 with
  | .error e => .error e
  | .ok s1 =>
    match bellatrixStep execution_payload_header spec s1 with
    | .error e => .error e
    | .ok s2 =>
      match capellaStep execution_payload_header spec s2 with
      | .error e => .error e
      | .ok s3 => denebStep execution_payload_header spec s3

/-- Modelled from the spec: the opaque commitment of one validator record
used by the validator-set tree hash. -/
def validatorRoot (v : Validator) : Nat :=
  hashCombine (hashCombine v.pubkey v.effective_balance)
    (hashCombine v.activation_epoch v.exit_epoch)

/-- Modelled from the spec: the commitment root over the validator list
(state.update_validators_tree_hash_cache()). -/
def validatorsRoot (vs : List Validator) : Nat :=
  vs.foldl (fun acc v => hashCombine acc (validatorRoot v)) 0

/-- Modelled from the spec: build_caches rebuilds derived caches
(committee and balance indexes) and changes no observable state field. -/
def build_caches (s : BeaconState) (_spec : ChainSpec) :
    Except BlockProcessingError BeaconState :=
  .ok s

/-- Final stage of genesis construction (genesis.rs lines 113 to 119):
rebuild the caches and store the validator-set commitment root as the
genesis validators root. -/
def finalizeState (spec : ChainSpec) (s : BeaconState) :
    Except BlockProcessingError BeaconState :=
  match build_caches s spec with
  | .error e => .error e
  | .ok s1 => .ok { s1 with genesis_validators_root := validatorsRoot s1.validators }

/-- Initialize a BeaconState from genesis data (genesis.rs lines 14 to
120): core stage, fork upgrade chain, finalization. -/
def initialize_beacon_state_from_eth1 (eth1_block_hash eth1_timestamp : Nat)
    (deposits : List Deposit)
    (execution_payload_header : Option ExecutionPayloadHeader)
    (spec : ChainSpec) : Except BlockProcessingError BeaconState :=
  match genesisCoreState eth1_block_hash eth1_timestamp deposits spec with
  | .error e => .error e
  | .ok s =>
    match applyUpgrades execution_payload_header spec s with
    | .error e => .error e
    | .ok s1 => finalizeState spec s1

/-- The latest fork, in the fixed chain order, whose configured activation
epoch equals the genesis epoch; base when none does. -/
def latestGenesisFork (spec : ChainSpec) : ForkName :=
  if forkAtGenesis spec.deneb_fork_epoch then .deneb
  else if forkAtGenesis spec.capella_fork_epoch then .capella
  else if forkAtGenesis spec.bellatrix_fork_epoch then .merge
  else if forkAtGenesis spec.altair_fork_epoch then .altair
  else .base

/-- Version identifier the configuration assigns to each fork name. -/
def forkVersion (spec : ChainSpec) : ForkName → Nat
  | .base => spec.genesis_fork_version
  | .altair => spec.altair_fork_version
  | .merge => spec.bellatrix_fork_version
  | .capella => spec.capella_fork_version
  | .deneb => spec.deneb_fork_version

/-- True when a supplied header override has the shape of some fork whose
activation epoch equals the genesis epoch. -/
def headerMatchesGenesisFork (spec : ChainSpec)
    (h : ExecutionPayloadHeader) : Bool :=
  match h with
  | .merge _ => forkAtGenesis spec.bellatrix_fork_epoch
  | .capella _ => forkAtGenesis spec.capella_fork_epoch
  | .deneb _ => forkAtGenesis spec.deneb_fork_epoch

/-- Per-validator effect of the activation pass as the specification
states it: quantized capped effective balance, genesis activation epochs
exactly for maximally funded validators, other fields untouched. -/
def activationUpdate (spec : ChainSpec) (v : Validator) (b : Nat) : Validator :=
  let eb := min (b - b % spec.effective_balance_increment) spec.max_effective_balance
  if eb = spec.max_effective_balance then
    { v with effective_balance := eb
             activation_eligibility_epoch := genesisEpoch
             activation_epoch := genesisEpoch }
  else
    { v with effective_balance := eb }

/-- Sample configuration: no fork activation epoch equals the genesis
epoch (Altair is configured at a later epoch, the rest are unset). -/
def exSpecNoFork : ChainSpec :=
  { genesis_fork_version := 100
    altair_fork_version := 101
    bellatrix_fork_version := 102
    capella_fork_version := 103
    deneb_fork_version := 104
    altair_fork_epoch := some 5
    bellatrix_fork_epoch := none
    capella_fork_epoch := none
    deneb_fork_epoch := none
    genesis_delay := 10
    min_genesis_time := 3
    min_genesis_active_validator_count := 1
    effective_balance_increment := 8
    max_effective_balance := 32
    far_future_epoch := 999 }

/-- Sample configuration: every fork activation epoch equals the genesis
epoch. -/
def exSpecAllForks : ChainSpec :=
  { exSpecNoFork with
    altair_fork_epoch := some 0
    bellatrix_fork_epoch := some 0
    capella_fork_epoch := some 0
    deneb_fork_epoch := some 0 }

/-- Sample configuration: effective balance increment of zero. -/
def exSpecIncZero : ChainSpec :=
  { exSpecNoFork with effective_balance_increment := 0 }

/-- Sample configuration: minimum active validator count of two. -/
def exSpecMinTwo : ChainSpec :=
  { exSpecNoFork with min_genesis_active_validator_count := 2 }

/-- Sample deposit with the given pubkey and amount. -/
def exDeposit (pk amt : Nat) : Deposit :=
  { proof := []
    data := { pubkey := pk, withdrawal_credentials := 55, amount := amt, signature := 66 } }

/-- Sample validator with the far-future sentinel epochs. -/
def exValidator (pk : Nat) : Validator :=
  { pubkey := pk
    withdrawal_credentials := 55
    effective_balance := 0
    activation_eligibility_epoch := 999
    activation_epoch := 999
    exit_epoch := 999 }

/-- Sample state: two validators with balances 32 and 17, genesis time
100, base shape. -/
def exStateTwo : BeaconState :=
  { genesis_time := 100
    eth1_data := { deposit_root := 0, deposit_count := 2, block_hash := 7 }
    randao_mixes := [7]
    validators := [exValidator 1, exValidator 2]
    balances := [32, 17]
    fork := initialFork exSpecNoFork
    shape := .base
    genesis_validators_root := 0 }

/-- Sample state: one validator, active at genesis, genesis time 100. -/
def exStateActive : BeaconState :=
  { exStateTwo with
    validators := [{ exValidator 1 with activation_epoch := 0 }]
    balances := [32] }

/-- Sample state: two validators but only one balance entry. -/
def exStateMisaligned : BeaconState :=
  { exStateTwo with balances := [32] }

/-- Genesis state produced for anchor hash 7, timestamp 5, no deposits,
every fork at genesis: Deneb shape with collapsed fork marker. -/
def exStateGenesisDeneb : BeaconState :=
  { genesis_time := 15
    eth1_data := { deposit_root := 0, deposit_count := 0, block_hash := 7 }
    randao_mixes := List.replicate EPOCHS_PER_HISTORICAL_VECTOR 7
    validators := []
    balances := []
    fork := { previous_version := 104, current_version := 104, epoch := 0 }
    shape := .deneb 0
    genesis_validators_root := 0 }

/-- Genesis state produced for anchor hash 7, timestamp 5, no deposits,
no fork at genesis: base shape with the construction fork marker. -/
def exStateGenesisBase : BeaconState :=
  { genesis_time := 15
    eth1_data := { deposit_root := 0, deposit_count := 0, block_hash := 7 }
    randao_mixes := List.replicate EPOCHS_PER_HISTORICAL_VECTOR 7
    validators := []
    balances := []
    fork := initialFork exSpecNoFork
    shape := .base
    genesis_validators_root := 0 }

/-- Validator created and activated by one maximal deposit. -/
def exValidatorDeposited : Validator :=
  { pubkey := 1
    withdrawal_credentials := 55
    effective_balance := 32
    activation_eligibility_epoch := 0
    activation_epoch := 0
    exit_epoch := 999 }

/-- Anchor record seen by deposit intake for the single deposit of the
one-deposit run. -/
def exE0 : Eth1Data :=
  { deposit_root := DepositDataTree.root
      { leaves := [depositDataRoot (exDeposit 1 32).data], depth := DEPOSIT_TREE_DEPTH }
    deposit_count := 1
    block_hash := 7 }

/-- Genesis state produced for anchor hash 7, timestamp 5, one maximal
deposit, no fork at genesis. -/
def exS3One : BeaconState :=
  { genesis_time := 15
    eth1_data := exE0
    randao_mixes := List.replicate EPOCHS_PER_HISTORICAL_VECTOR 7
    validators := [exValidatorDeposited]
    balances := [32]
    fork := initialFork exSpecNoFork
    shape := .base
    genesis_validators_root := validatorsRoot [exValidatorDeposited] }

/-- State obtained by the activation pass on exStateTwo under
exSpecNoFork: the first validator reaches the maximum and is activated,
the second is quantized to 16 and left at the sentinel. -/
def exStateTwoActivated : BeaconState :=
  { exStateTwo with
    validators :=
      [{ exValidator 1 with effective_balance := 32
                            activation_eligibility_epoch := 0
                            activation_epoch := 0 },
       { exValidator 2 with effective_balance := 16 }] }

/-- N pushes in order into the accumulator. -/
def pushLeaves (t : DepositDataTree) : List Nat → Except MerkleTreeError DepositDataTree
  | [] => .ok t
  | l :: rest =>
    match t.push_leaf l with
    | .error e => .error e
    | .ok t1 => pushLeaves t1 rest

/-- Leaf commitment list of a deposit list. -/
def depositLeaves (ds : List Deposit) : List Nat :=
  ds.map (fun d => depositDataRoot d.data)

lemma safeRem_ok {a b r : Nat} (h : safeRem a b = .ok r) :
    b ≠ 0 ∧ r = a % b := by
  unfold safeRem at h
  split at h
  · exact absurd h (by simp)
  · exact ⟨by assumption, by injection h; omega⟩

lemma safeSub_ok_of_le {a b : Nat} (h : b ≤ a) : safeSub a b = .ok (a - b) := by
  unfold safeSub
  simp [h]

lemma activateValidators_get {spec : ChainSpec} {balances : List Nat} :
    ∀ {vs : List Validator} {k : Nat} {vs' : List Validator},
      activateValidators spec balances k vs = .ok vs' →
      ∀ i v, vs.get? i = some v →
        ∃ b, balances.get? (k + i) = some b ∧
          vs'.get? i = some (activationUpdate spec v b) := by
  intro vs
  induction vs with
  | nil =>
    intro k vs' _ i v hv
    simp at hv
  | cons v0 rest ih =>
    intro k vs' h i v hv
    rw [activateValidators] at h
    rcases hb : balances.get? k with _ | b0
    · simp only [hb] at h
      exact absurd h (by simp)
    · simp only [hb] at h
      rcases hr : safeRem b0 spec.effective_balance_increment with e | r
      · simp only [hr] at h
        exact absurd h (by simp)
      · simp only [hr] at h
        obtain ⟨hinc, hrv⟩ := safeRem_ok hr
        have hle : r ≤ b0 := by rw [hrv]; exact Nat.mod_le _ _
        rcases hrec : activateValidators spec balances (k + 1) rest with e | rest1
        · simp only [safeSub_ok_of_le hle, hrec] at h
          exact absurd h (by simp)
        · simp only [safeSub_ok_of_le hle, hrec, Except.ok.injEq] at h
          subst h
          match i with
          | 0 =>
            refine ⟨b0, by simpa using hb, ?_⟩
            simp only [List.get?] at hv ⊢
            injection hv with hv
            subst hv
            simp only [Option.some.injEq]
            rw [activationUpdate]
            subst hrv
            rfl
          | Nat.succ j =>
            simp only [List.get?] at hv ⊢
            obtain ⟨b, hb1, hb2⟩ := ih hrec j v hv
            refine ⟨b, ?_, hb2⟩
            have : k + (j + 1) = k + 1 + j := by omega
            rw [this]
            exact hb1

lemma activateValidators_ok_of_le {spec : ChainSpec} {balances : List Nat}
    (hinc : spec.effective_balance_increment ≠ 0) :
    ∀ (vs : List Validator) (k : Nat), k + vs.length ≤ balances.length →
      ∃ vs', activateValidators spec balances k vs = .ok vs' := by
  intro vs
  induction vs with
  | nil => intro k _; exact ⟨[], rfl⟩
  | cons v0 rest ih =>
    intro k hk
    have hklt : k < balances.length := by simp at hk; omega
    have hb : balances.get? k = some (balances.get ⟨k, hklt⟩) :=
      List.get?_eq_get hklt
    have hr : safeRem (balances.get ⟨k, hklt⟩) spec.effective_balance_increment
        = .ok (balances.get ⟨k, hklt⟩ % spec.effective_balance_increment) := by
      unfold safeRem; simp [hinc]
    have hle : balances.get ⟨k, hklt⟩ % spec.effective_balance_increment
        ≤ balances.get ⟨k, hklt⟩ := Nat.mod_le _ _
    obtain ⟨rest1, hrec⟩ := ih (k + 1) (by simp at hk ⊢; omega)
    refine ⟨activationUpdate spec v0 (balances.get ⟨k, hklt⟩) :: rest1, ?_⟩
    rw [activateValidators]
    simp only [hb, hr, safeSub_ok_of_le hle, hrec, activationUpdate]

lemma activateValidators_boob_iff {spec : ChainSpec} {balances : List Nat}
    (hinc : spec.effective_balance_increment ≠ 0) :
    ∀ (vs : List Validator) (k i : Nat), k ≤ balances.length →
      (activateValidators spec balances k vs = .error (.BalancesOutOfBounds i) ↔
        (i = balances.length ∧ i < k + vs.length)) := by
  intro vs
  induction vs with
  | nil =>
    intro k i _
    constructor
    · intro h; exact absurd h (by simp [activateValidators])
    · intro ⟨h1, h2⟩; simp at h2; omega
  | cons v0 rest ih =>
    intro k i hk
    rw [activateValidators]
    rcases hb : balances.get? k with _ | b0
    · have hlen : balances.length ≤ k := by
        rw [← List.get?_eq_none]; exact hb
      have hkeq : k = balances.length := by omega
      simp only [hb]
      constructor
      · intro h
        injection h with h
        injection h with h
        subst h
        exact ⟨by omega, by simp only [List.length_cons]; omega⟩
      · intro ⟨h1, _⟩
        have : i = k := by omega
        subst this
        rfl
    · have hklt : k < balances.length := by
        by_contra hcon
        rw [List.get?_eq_none.mpr (by omega)] at hb
        exact absurd hb (by simp)
      have hr : safeRem b0 spec.effective_balance_increment
          = .ok (b0 % spec.effective_balance_increment) := by
        unfold safeRem; simp [hinc]
      have hle : b0 % spec.effective_balance_increment ≤ b0 := Nat.mod_le _ _
      simp only [hb, hr, safeSub_ok_of_le hle]
      have ihk := ih (k + 1) i (by omega)
      rcases hrec : activateValidators spec balances (k + 1) rest with e | rest1
      · simp only [hrec]
        rw [hrec] at ihk
        rcases e with j | _ | _
        · constructor
          · intro h
            injection h with h
            injection h with h
            subst h
            have := ihk.mp rfl
            exact ⟨this.1, by simp; have h2 := this.2; simp at h2; omega⟩
          · intro ⟨h1, h2⟩
            have := ihk.mpr ⟨h1, by simp at h2 ⊢; omega⟩
            injection this with h3
            rw [h3]
        · constructor
          · intro h; injection h with h; injection h
          · intro ⟨h1, h2⟩
            have := ihk.mpr ⟨h1, by simp at h2 ⊢; omega⟩
            injection this with h3
            rw [h3]
        · constructor
          · intro h; injection h with h; injection h
          · intro ⟨h1, h2⟩
            have := ihk.mpr ⟨h1, by simp at h2 ⊢; omega⟩
            injection this with h3
            rw [h3]
      · simp only [hrec]
        rw [hrec] at ihk
        constructor
        · intro h; exact absurd h (by simp)
        · intro ⟨h1, h2⟩
          have := ihk.mpr ⟨h1, by simp at h2 ⊢; omega⟩
          exact absurd this (by simp)

lemma process_activations_ok_elim {s : BeaconState} {spec : ChainSpec}
    {s1 : BeaconState} (h : process_activations s spec = .ok s1) :
    ∃ vs, activateValidators spec s.balances 0 s.validators = .ok vs ∧
      s1 = { s with validators := vs } := by
  unfold process_activations at h
  rcases hv : activateValidators spec s.balances 0 s.validators with e | vs
  · rw [hv] at h; exact absurd h (by simp)
  · rw [hv] at h
    injection h with h
    exact ⟨vs, rfl, h.symm⟩

lemma process_activations_get {s : BeaconState} {spec : ChainSpec}
    {s1 : BeaconState} (h : process_activations s spec = .ok s1)
    {i : Nat} {v : Validator} (hv : s.validators.get? i = some v) :
    ∃ b, s.balances.get? i = some b ∧
      s1.validators.get? i = some (activationUpdate spec v b) := by
  obtain ⟨vs, hvs, hs1⟩ := process_activations_ok_elim h
  obtain ⟨b, hb, hget⟩ := activateValidators_get hvs i v hv
  refine ⟨b, by simpa using hb, ?_⟩
  rw [hs1]
  exact hget

lemma process_activations_ok_of_align {s : BeaconState} {spec : ChainSpec}
    (hinc : spec.effective_balance_increment ≠ 0)
    (hlen : s.validators.length ≤ s.balances.length) :
    ∃ s1, process_activations s spec = .ok s1 := by
  obtain ⟨vs, hvs⟩ :=
    @activateValidators_ok_of_le spec s.balances hinc s.validators 0 (by omega)
  exact ⟨{ s with validators := vs }, by unfold process_activations; rw [hvs]⟩

lemma process_activations_boob_iff {s : BeaconState} {spec : ChainSpec}
    (hinc : spec.effective_balance_increment ≠ 0) (i : Nat) :
    process_activations s spec = .error (.BalancesOutOfBounds i) ↔
      (i = s.balances.length ∧ s.balances.length < s.validators.length) := by
  unfold process_activations
  have hiff := @activateValidators_boob_iff spec s.balances hinc s.validators 0 i (by omega)
  rcases hv : activateValidators spec s.balances 0 s.validators with e | vs
  · rw [hv] at hiff
    constructor
    · intro h
      have he : e = .BalancesOutOfBounds i := by
        rcases e with j | _ | _
        · simp at h
          simp [h]
        · simp at h
        · simp at h
      rw [he] at hiff
      obtain ⟨h1, h2⟩ := hiff.mp rfl
      exact ⟨h1, by omega⟩
    · intro ⟨h1, h2⟩
      have := hiff.mpr ⟨h1, by omega⟩
      rw [this]
  · rw [hv] at hiff
    constructor
    · intro h; exact absurd h (by simp)
    · intro ⟨h1, h2⟩
      exact absurd (hiff.mpr ⟨h1, by omega⟩) (by simp)

lemma process_activations_div_zero {s : BeaconState} {spec : ChainSpec}
    {v0 : Validator} {rest : List Validator} {b0 : Nat}
    (hinc : spec.effective_balance_increment = 0)
    (hvs : s.validators = v0 :: rest)
    (hb : s.balances.get? 0 = some b0) :
    process_activations s spec = .error (.ArithError .DivisionByZero) := by
  unfold process_activations
  rw [hvs, activateValidators]
  have hr : safeRem b0 spec.effective_balance_increment = .error .DivisionByZero := by
    unfold safeRem; simp [hinc]
  simp only [hb, hr]

/-- C3: process_activations sets every validator effective balance to
min(balance minus (balance mod increment), max_effective_balance); a
validator whose resulting effective balance equals the maximum gets both
activation epochs set to the genesis epoch and every other validator
keeps its epochs unchanged (at the far-future sentinel when it started
there); with index-aligned balances the pass succeeds, rejecting no
validator for insufficient balance. -/
theorem C3_activation_pass (s : BeaconState) (spec : ChainSpec) :
    (∀ s1 i v, process_activations s spec = .ok s1 →
      s.validators.get? i = some v →
      ∃ b, s.balances.get? i = some b ∧
        s1.validators.get? i = some (activationUpdate spec v b)) ∧
    (spec.effective_balance_increment ≠ 0 →
      s.validators.length ≤ s.balances.length →
      ∃ s1, process_activations s spec = .ok s1) := by
  constructor
  · intro s1 i v h hv
    exact process_activations_get h hv
  · intro hinc hlen
    exact process_activations_ok_of_align hinc hlen

/-- Witness for C3 at a concrete two-validator state. -/
theorem C3_witness :
    (∃ b, exStateTwo.balances.get? 0 = some b ∧
      exStateTwoActivated.validators.get? 0 =
        some (activationUpdate exSpecNoFork (exValidator 1) b)) ∧
    (∃ s1, process_activations exStateTwo exSpecNoFork = .ok s1) :=
  ⟨(C3_activation_pass exStateTwo exSpecNoFork).1 exStateTwoActivated 0
      (exValidator 1) (by rfl) (by rfl),
   (C3_activation_pass exStateTwo exSpecNoFork).2 (by decide) (by decide)⟩

/-- C6: eth2_genesis_time returns the sum of the eth1 timestamp and the
genesis delay when it fits in a u64 and fails with the typed Overflow
arithmetic error when it does not; the quantization in
process_activations fails with the typed DivisionByZero arithmetic error
when the effective balance increment is zero (and a validator with a
balance entry exists for the quantization to run on). -/
theorem C6_checked_arithmetic (t : Nat) (spec : ChainSpec) (s : BeaconState)
    (b0 : Nat) (v0 : Validator) (rest : List Validator)
    (hinc : spec.effective_balance_increment = 0)
    (hvs : s.validators = v0 :: rest)
    (hb : s.balances.get? 0 = some b0) :
    (t + spec.genesis_delay < U64_LIMIT →
      eth2_genesis_time t spec = .ok (t + spec.genesis_delay)) ∧
    (U64_LIMIT ≤ t + spec.genesis_delay →
      eth2_genesis_time t spec = .error .Overflow) ∧
    process_activations s spec = .error (.ArithError .DivisionByZero) := by
  refine ⟨?_, ?_, process_activations_div_zero hinc hvs hb⟩
  · intro h
    unfold eth2_genesis_time safeAdd
    simp [h]
  · intro h
    unfold eth2_genesis_time safeAdd
    simp [Nat.not_lt.mpr h]

/-- Witness for C6: a fitting sum, an overflowing sum, and a zero
increment at a concrete state. -/
theorem C6_witness :
    eth2_genesis_time 5 exSpecIncZero = .ok 15 ∧
    eth2_genesis_time (2 ^ 64) exSpecIncZero = .error .Overflow ∧
    process_activations exStateTwo exSpecIncZero =
      .error (.ArithError .DivisionByZero) := by
  have h1 := C6_checked_arithmetic 5 exSpecIncZero exStateTwo 32
    (exValidator 1) [exValidator 2] (by decide) (by decide) (by decide)
  have h2 := C6_checked_arithmetic (2 ^ 64) exSpecIncZero exStateTwo 32
    (exValidator 1) [exValidator 2] (by decide) (by decide) (by decide)
  exact ⟨h1.1 (by decide), h2.2.1 (by decide), h1.2.2⟩

/-- C7: under a nonzero balance increment, process_activations fails with
BalancesOutOfBounds carrying the offending index exactly when some
validator index has no balance entry (the offending index is the first
such, the balance list length); with index-aligned equal-length lists the
error branch is unreachable and the pass succeeds. -/
theorem C7_balances_bounds (s : BeaconState) (spec : ChainSpec)
    (hinc : spec.effective_balance_increment ≠ 0) :
    (∀ i, process_activations s spec = .error (.BalancesOutOfBounds i) ↔
      (i = s.balances.length ∧ s.balances.length < s.validators.length)) ∧
    (s.validators.length = s.balances.length →
      ∃ s1, process_activations s spec = .ok s1) :=
  ⟨fun i => process_activations_boob_iff hinc i,
   fun h => process_activations_ok_of_align hinc (le_of_eq h)⟩

/-- Witness for C7: a misaligned state fails with the offending index and
an aligned state succeeds. -/
theorem C7_witness :
    process_activations exStateMisaligned exSpecNoFork =
      .error (.BalancesOutOfBounds 1) ∧
    (∃ s1, process_activations exStateTwo exSpecNoFork = .ok s1) :=
  ⟨((C7_balances_bounds exStateMisaligned exSpecNoFork (by decide)).1 1).mpr
      ⟨by decide, by decide⟩,
   (C7_balances_bounds exStateTwo exSpecNoFork (by decide)).2 (by decide)⟩

/-- C4: is_valid_genesis_state is a pure Boolean predicate that holds iff
genesis time is at least the configured minimum and the count of
validators active at the genesis epoch is at least the configured
minimum; a failing active-validator query maps to false, never to a
propagated error; in particular the predicate is false when the active
count is one below the minimum and true at exactly the minimum when
genesis time is above threshold. -/
theorem C4_validity_predicate (s : BeaconState) (spec : ChainSpec)
    (e : Error) (ls : List Nat)
    (hq : get_active_validator_indices s genesisEpoch spec = .ok ls) :
    is_valid_genesis_state_core (.error e) s.genesis_time spec = false ∧
    (is_valid_genesis_state s spec = true ↔
      (spec.min_genesis_time ≤ s.genesis_time ∧
        spec.min_genesis_active_validator_count ≤ ls.length)) ∧
    (ls.length + 1 = spec.min_genesis_active_validator_count →
      is_valid_genesis_state s spec = false) ∧
    (ls.length = spec.min_genesis_active_validator_count →
      spec.min_genesis_time ≤ s.genesis_time →
      is_valid_genesis_state s spec = true) := by
  have hiff : is_valid_genesis_state s spec = true ↔
      (spec.min_genesis_time ≤ s.genesis_time ∧
        spec.min_genesis_active_validator_count ≤ ls.length) := by
    unfold is_valid_genesis_state
    rw [hq]
    unfold is_valid_genesis_state_core
    simp
  refine ⟨rfl, hiff, ?_, ?_⟩
  · intro hlow
    rcases hb : is_valid_genesis_state s spec with _ | _
    · rfl
    · obtain ⟨_, hcnt⟩ := hiff.mp hb
      omega
  · intro hexact htime
    exact hiff.mpr ⟨htime, by omega⟩

/-- Witness for C4: one active validator, thresholds two and one. -/
theorem C4_witness :
    is_valid_genesis_state exStateActive exSpecMinTwo = false ∧
    is_valid_genesis_state exStateActive exSpecNoFork = true :=
  ⟨(C4_validity_predicate exStateActive exSpecMinTwo .IncorrectStateVariant
      [0] (by rfl)).2.2.1 (by decide),
   (C4_validity_predicate exStateActive exSpecNoFork .IncorrectStateVariant
      [0] (by rfl)).2.2.2 (by decide) (by decide)⟩

lemma push_leaf_ok {t : DepositDataTree} {l : Nat} {t1 : DepositDataTree}
    (h : t.push_leaf l = .ok t1) :
    t1 = { t with leaves := t.leaves ++ [l] } ∧ t.leaves.length < 2 ^ t.depth := by
  unfold DepositDataTree.push_leaf at h
  split at h
  · exact ⟨by injection h with h; exact h.symm, by assumption⟩
  · exact absurd h (by simp)

lemma pushLeaves_ok {t : DepositDataTree} {ls : List Nat}
    (h : t.leaves.length + ls.length ≤ 2 ^ t.depth) :
    pushLeaves t ls = .ok ⟨t.leaves ++ ls, t.depth⟩ := by
  induction ls generalizing t with
  | nil => simp [pushLeaves]
  | cons l rest ih =>
    rw [pushLeaves]
    have hlt : t.leaves.length < 2 ^ t.depth := by simp at h; omega
    have hp : t.push_leaf l = .ok { t with leaves := t.leaves ++ [l] } := by
      unfold DepositDataTree.push_leaf
      simp [hlt]
    simp only [hp]
    have := @ih { t with leaves := t.leaves ++ [l] } (by simp at h ⊢; omega)
    rw [this]
    simp

lemma process_deposit_frame {s : BeaconState} {d : Deposit} {spec : ChainSpec}
    {b : Bool} {s1 : BeaconState} (h : process_deposit s d spec b = .ok s1) :
    s1.eth1_data = s.eth1_data ∧ s1.shape = s.shape ∧ s1.fork = s.fork ∧
      s1.genesis_time = s.genesis_time ∧ s1.randao_mixes = s.randao_mixes ∧
      s1.genesis_validators_root = s.genesis_validators_root := by
  unfold process_deposit at h
  rcases hf : s.validators.findIdx? (fun v => v.pubkey == d.data.pubkey) with _ | i
  · simp only [hf] at h
    injection h with h
    subst h
    exact ⟨rfl, rfl, rfl, rfl, rfl, rfl⟩
  · simp only [hf] at h
    rcases ha : safeAdd ((s.balances.get? i).getD 0) d.data.amount with e | bsum
    · simp only [ha] at h
      exact absurd h (by simp)
    · simp only [ha] at h
      injection h with h
      subst h
      exact ⟨rfl, rfl, rfl, rfl, rfl, rfl⟩

lemma applyDeposits_ok_spec {spec : ChainSpec} :
    ∀ {ds : List Deposit} {s : BeaconState} {t : DepositDataTree}
      {s' : BeaconState} {t' : DepositDataTree},
      applyDeposits spec s t ds = .ok (s', t') →
      t'.depth = t.depth ∧ t'.leaves = t.leaves ++ depositLeaves ds ∧
        s'.shape = s.shape ∧ s'.fork = s.fork ∧
        s'.genesis_time = s.genesis_time ∧
        s'.eth1_data.deposit_count = s.eth1_data.deposit_count ∧
        s'.eth1_data.block_hash = s.eth1_data.block_hash ∧
        (ds = [] → s' = s ∧ t' = t) ∧
        (ds ≠ [] → s'.eth1_data.deposit_root = t'.root) := by
  intro ds
  induction ds with
  | nil =>
    intro s t s' t' h
    rw [applyDeposits] at h
    injection h with h
    injection h with h1 h2
    subst h1; subst h2
    simp [depositLeaves]
  | cons d rest ih =>
    intro s t s' t' h
    rw [applyDeposits] at h
    rcases hp : t.push_leaf (depositDataRoot d.data) with e | t1
    · simp only [hp] at h
      exact absurd h (by simp)
    · simp only [hp] at h
      obtain ⟨ht1, _⟩ := push_leaf_ok hp
      rcases hd : process_deposit
          { s with eth1_data := { s.eth1_data with deposit_root := t1.root } }
          d spec true with e | s2
      · simp only [hd] at h
        exact absurd h (by simp)
      · simp only [hd] at h
        obtain ⟨he, hsh, hfk, hgt, _, _⟩ := process_deposit_frame hd
        obtain ⟨iht, ihl, ihsh, ihfk, ihgt, ihc, ihb, ihnil, ihroot⟩ := ih h
        have hcount : s2.eth1_data.deposit_count = s.eth1_data.deposit_count := by
          rw [he]
        have hbh : s2.eth1_data.block_hash = s.eth1_data.block_hash := by
          rw [he]
        refine ⟨by rw [iht, ht1], ?_, by rw [ihsh, hsh], by rw [ihfk, hfk],
            by rw [ihgt, hgt], by rw [ihc, hcount], by rw [ihb, hbh], ?_, ?_⟩
        · rw [ihl, ht1]
          simp [depositLeaves]
        · intro hcons
          exact absurd hcons (by simp)
        · intro _
          rcases hrest : rest with _ | ⟨d2, rest2⟩
          · subst hrest
            obtain ⟨hs2, ht2⟩ := ihnil rfl
            rw [hs2, he, ht2, ht1]
          · have : rest ≠ [] := by rw [hrest]; simp
            exact ihroot this

lemma depositIntakeTrace_get {spec : ChainSpec} :
    ∀ {ds : List Deposit} {s : BeaconState} {t : DepositDataTree}
      {i : Nat} {e : Eth1Data},
      (depositIntakeTrace spec s t ds).get? i = some e →
      e.deposit_count = s.eth1_data.deposit_count ∧
        e.block_hash = s.eth1_data.block_hash ∧
        e.deposit_root = DepositDataTree.root
          ⟨t.leaves ++ depositLeaves (ds.take (i + 1)), t.depth⟩ := by
  intro ds
  induction ds with
  | nil =>
    intro s t i e h
    simp [depositIntakeTrace] at h
  | cons d rest ih =>
    intro s t i e h
    rw [depositIntakeTrace] at h
    rcases hp : t.push_leaf (depositDataRoot d.data) with merr | t1
    · simp only [hp] at h
      simp at h
    · simp only [hp] at h
      obtain ⟨ht1, _⟩ := push_leaf_ok hp
      match i with
      | 0 =>
        simp only [List.get?] at h
        injection h with h
        subst h
        refine ⟨rfl, rfl, ?_⟩
        simp only [List.take_succ_cons, List.take_zero]
        rw [ht1]
        simp [depositLeaves, DepositDataTree.root]
      | Nat.succ j =>
        simp only [List.get?] at h
        rcases hd : process_deposit
            { s with eth1_data := { s.eth1_data with deposit_root := t1.root } }
            d spec true with merr2 | s2
        · simp only [hd] at h
          simp at h
        · simp only [hd] at h
          obtain ⟨he, _, _, _, _, _⟩ := process_deposit_frame hd
          obtain ⟨ihc, ihb, ihr⟩ := ih h
          have hec : s2.eth1_data.deposit_count = s.eth1_data.deposit_count := by
            rw [he]
          have heb : s2.eth1_data.block_hash = s.eth1_data.block_hash := by
            rw [he]
          refine ⟨by rw [ihc, hec], by rw [ihb, heb], ?_⟩
          rw [ihr, ht1]
          simp only [List.take_succ_cons]
          simp [depositLeaves]

lemma genesisCoreState_elim {ebh ts : Nat} {ds : List Deposit}
    {spec : ChainSpec} {s3 : BeaconState}
    (h : genesisCoreState ebh ts ds spec = .ok s3) :
    ∃ gt s2 t2,
      eth2_genesis_time ts spec = .ok gt ∧
      applyDeposits spec
        ((BeaconState.new gt
            { deposit_root := 0, deposit_count := ds.length, block_hash := ebh }
            spec).fill_randao_mixes_with ebh)
        (DepositDataTree.create [] 0 DEPOSIT_TREE_DEPTH) ds = .ok (s2, t2) ∧
      process_activations s2 spec = .ok s3 := by
  unfold genesisCoreState at h
  rcases hgt : eth2_genesis_time ts spec with e | gt
  · simp only [hgt] at h
    exact absurd h (by simp)
  · simp only [hgt] at h
    rcases hdep : applyDeposits spec
        ((BeaconState.new gt
            { deposit_root := 0, deposit_count := ds.length, block_hash := ebh }
            spec).fill_randao_mixes_with ebh)
        (DepositDataTree.create [] 0 DEPOSIT_TREE_DEPTH) ds with e | p
    · simp only [hdep] at h
      exact absurd h (by simp)
    · obtain ⟨s2, t2⟩ := p
      simp only [hdep] at h
      rcases hact : process_activations s2 spec with e | s3x
      · simp only [hact] at h
        exact absurd h (by simp)
      · simp only [hact] at h
        injection h with h
        subst h
        exact ⟨gt, s2, t2, rfl, hdep, hact⟩

lemma genesisCoreState_fields {ebh ts : Nat} {ds : List Deposit}
    {spec : ChainSpec} {s3 : BeaconState}
    (h : genesisCoreState ebh ts ds spec = .ok s3) :
    s3.shape = .base ∧ s3.fork = initialFork spec ∧
      s3.eth1_data.deposit_count = ds.length ∧
      s3.eth1_data.block_hash = ebh ∧
      (ds = [] → s3.eth1_data.deposit_root = 0) ∧
      (ds ≠ [] → s3.eth1_data.deposit_root =
        DepositDataTree.root
          (DepositDataTree.create (depositLeaves ds) 0 DEPOSIT_TREE_DEPTH)) := by
  obtain ⟨gt, s2, t2, _, hdep, hact⟩ := genesisCoreState_elim h
  obtain ⟨ht2d, ht2l, hsh, hfk, _, hcnt, hbh, hnil, hroot⟩ :=
    applyDeposits_ok_spec hdep
  obtain ⟨vs, _, hs3⟩ := process_activations_ok_elim hact
  have hsh3 : s3.shape = s2.shape := by rw [hs3]
  have hfk3 : s3.fork = s2.fork := by rw [hs3]
  have he3 : s3.eth1_data = s2.eth1_data := by rw [hs3]
  refine ⟨by rw [hsh3, hsh]; rfl, by rw [hfk3, hfk]; rfl, by rw [he3, hcnt]; rfl,
      by rw [he3, hbh]; rfl, ?_, ?_⟩
  · intro hds
    subst hds
    obtain ⟨hs2, _⟩ := hnil rfl
    rw [he3, hs2]
    rfl
  · intro hne
    rw [he3, hroot hne]
    unfold DepositDataTree.root
    rw [ht2d, ht2l]
    simp [DepositDataTree.create]

lemma altairStep_cases {spec : ChainSpec} {s r : BeaconState}
    (h : altairStep spec s = .ok r) :
    (forkAtGenesis spec.altair_fork_epoch = false ∧ r = s) ∨
    (forkAtGenesis spec.altair_fork_epoch = true ∧ s.shape = .base ∧
      r = { s with shape := .altair
                   fork := { previous_version := spec.altair_fork_version
                             current_version := spec.altair_fork_version
                             epoch := genesisEpoch } }) := by
  unfold altairStep at h
  rcases hfg : forkAtGenesis spec.altair_fork_epoch
  · rw [hfg] at h
    simp only [Bool.false_eq_true, if_false] at h
    injection h with h
    exact Or.inl ⟨rfl, h.symm⟩
  · rw [hfg] at h
    simp only [if_true] at h
    unfold upgrade_to_altair at h
    rcases hs : s.shape with _ | _ | hh | hh | hh
    all_goals simp only [hs] at h
    · injection h with h
      refine Or.inr ⟨rfl, rfl, ?_⟩
      rw [← h]
      simp [setPreviousVersion]
    all_goals exact absurd h (by simp)

lemma bellatrixStep_cases {o : Option ExecutionPayloadHeader}
    {spec : ChainSpec} {s r : BeaconState}
    (h : bellatrixStep o spec s = .ok r) :
    (forkAtGenesis spec.bellatrix_fork_epoch = false ∧ r = s) ∨
    (forkAtGenesis spec.bellatrix_fork_epoch = true ∧ s.shape = .altair ∧
      ∃ hh, r = { s with shape := .merge hh
                         fork := { previous_version := spec.bellatrix_fork_version
                                   current_version := spec.bellatrix_fork_version
                                   epoch := genesisEpoch } }) := by
  unfold bellatrixStep at h
  rcases hfg : forkAtGenesis spec.bellatrix_fork_epoch
  · rw [hfg] at h
    simp only [Bool.false_eq_true, if_false] at h
    injection h with h
    exact Or.inl ⟨rfl, h.symm⟩
  · rw [hfg] at h
    simp only [if_true] at h
    unfold upgrade_to_bellatrix at h
    rcases hs : s.shape with _ | _ | hh | hh | hh
    all_goals simp only [hs] at h
    case altair =>
      refine Or.inr ⟨rfl, rfl, ?_⟩
      rcases o with _ | hdr
      · simp only [setPreviousVersion] at h
        injection h with h
        exact ⟨0, by rw [← h]⟩
      · rcases hdr with hh2 | hh2 | hh2
        · simp only [setPreviousVersion, setExecutionHeaderMerge] at h
          injection h with h
          exact ⟨hh2, by rw [← h]⟩
        · simp only [setPreviousVersion] at h
          injection h with h
          exact ⟨0, by rw [← h]⟩
        · simp only [setPreviousVersion] at h
          injection h with h
          exact ⟨0, by rw [← h]⟩
    all_goals exact absurd h (by simp)

lemma capellaStep_cases {o : Option ExecutionPayloadHeader}
    {spec : ChainSpec} {s r : BeaconState}
    (h : capellaStep o spec s = .ok r) :
    (forkAtGenesis spec.capella_fork_epoch = false ∧ r = s) ∨
    (forkAtGenesis spec.capella_fork_epoch = true ∧
      (∃ h0, s.shape = .merge h0) ∧
      ∃ hh, r = { s with shape := .capella hh
                         fork := { previous_version := spec.capella_fork_version
                                   current_version := spec.capella_fork_version
                                   epoch := genesisEpoch } }) := by
  unfold capellaStep at h
  rcases hfg : forkAtGenesis spec.capella_fork_epoch
  · rw [hfg] at h
    simp only [Bool.false_eq_true, if_false] at h
    injection h with h
    exact Or.inl ⟨rfl, h.symm⟩
  · rw [hfg] at h
    simp only [if_true] at h
    unfold upgrade_to_capella at h
    rcases hs : s.shape with _ | _ | h0 | h0 | h0
    all_goals simp only [hs] at h
    case merge =>
      refine Or.inr ⟨rfl, ⟨h0, rfl⟩, ?_⟩
      rcases o with _ | hdr
      · simp only [setPreviousVersion] at h
        injection h with h
        exact ⟨h0, by rw [← h]⟩
      · rcases hdr with hh2 | hh2 | hh2
        · simp only [setPreviousVersion] at h
          injection h with h
          exact ⟨h0, by rw [← h]⟩
        · simp only [setPreviousVersion, setExecutionHeaderCapella] at h
          injection h with h
          exact ⟨hh2, by rw [← h]⟩
        · simp only [setPreviousVersion] at h
          injection h with h
          exact ⟨h0, by rw [← h]⟩
    all_goals exact absurd h (by simp)

lemma denebStep_cases {o : Option ExecutionPayloadHeader}
    {spec : ChainSpec} {s r : BeaconState}
    (h : denebStep o spec s = .ok r) :
    (forkAtGenesis spec.deneb_fork_epoch = false ∧ r = s) ∨
    (forkAtGenesis spec.deneb_fork_epoch = true ∧
      (∃ h0, s.shape = .capella h0) ∧
      ∃ hh, r = { s with shape := .deneb hh
                         fork := { previous_version := spec.deneb_fork_version
                                   current_version := spec.deneb_fork_version
                                   epoch := genesisEpoch } }) := by
  unfold denebStep at h
  rcases hfg : forkAtGenesis spec.deneb_fork_epoch
  · rw [hfg] at h
    simp only [Bool.false_eq_true, if_false] at h
    injection h with h
    exact Or.inl ⟨rfl, h.symm⟩
  · rw [hfg] at h
    simp only [if_true] at h
    unfold upgrade_to_deneb at h
    rcases hs : s.shape with _ | _ | h0 | h0 | h0
    all_goals simp only [hs] at h
    case capella =>
      refine Or.inr ⟨rfl, ⟨h0, rfl⟩, ?_⟩
      rcases o with _ | hdr
      · simp only [setPreviousVersion] at h
        injection h with h
        exact ⟨h0, by rw [← h]⟩
      · rcases hdr with hh2 | hh2 | hh2
        · simp only [setPreviousVersion] at h
          injection h with h
          exact ⟨h0, by rw [← h]⟩
        · simp only [setPreviousVersion] at h
          injection h with h
          exact ⟨h0, by rw [← h]⟩
        · simp only [setPreviousVersion, setExecutionHeaderDeneb] at h
          injection h with h
          exact ⟨hh2, by rw [← h]⟩
    all_goals exact absurd h (by simp)

lemma applyUpgrades_elim {o : Option ExecutionPayloadHeader}
    {spec : ChainSpec} {s0 r : BeaconState}
    (h : applyUpgrades o spec s0 = .ok r) :
    ∃ s1 s2 s3, altairStep spec s0 = .ok s1 ∧
      bellatrixStep o spec s1 = .ok s2 ∧
      capellaStep o spec s2 = .ok s3 ∧
      denebStep o spec s3 = .ok r := by
  unfold applyUpgrades at h
  rcases h1 : altairStep spec s0 with e | s1
  · simp only [h1] at h
    exact absurd h (by simp)
  · simp only [h1] at h
    rcases h2 : bellatrixStep o spec s1 with e | s2
    · simp only [h2] at h
      exact absurd h (by simp)
    · simp only [h2] at h
      rcases h3 : capellaStep o spec s2 with e | s3
      · simp only [h3] at h
        exact absurd h (by simp)
      · simp only [h3] at h
        exact ⟨s1, s2, s3, rfl, h2, h3, h⟩

lemma applyUpgrades_frame {o : Option ExecutionPayloadHeader}
    {spec : ChainSpec} {s0 r : BeaconState}
    (h : applyUpgrades o spec s0 = .ok r) :
    r.eth1_data = s0.eth1_data ∧ r.genesis_time = s0.genesis_time ∧
      r.validators = s0.validators ∧ r.balances = s0.balances ∧
      r.randao_mixes = s0.randao_mixes := by
  obtain ⟨s1, s2, s3, h1, h2, h3, h4⟩ := applyUpgrades_elim h
  have f1 : s1.eth1_data = s0.eth1_data ∧ s1.genesis_time = s0.genesis_time ∧
      s1.validators = s0.validators ∧ s1.balances = s0.balances ∧
      s1.randao_mixes = s0.randao_mixes := by
    rcases altairStep_cases h1 with ⟨_, he⟩ | ⟨_, _, he⟩ <;>
      subst he <;> exact ⟨rfl, rfl, rfl, rfl, rfl⟩
  have f2 : s2.eth1_data = s1.eth1_data ∧ s2.genesis_time = s1.genesis_time ∧
      s2.validators = s1.validators ∧ s2.balances = s1.balances ∧
      s2.randao_mixes = s1.randao_mixes := by
    rcases bellatrixStep_cases h2 with ⟨_, he⟩ | ⟨_, _, _, he⟩ <;>
      subst he <;> exact ⟨rfl, rfl, rfl, rfl, rfl⟩
  have f3 : s3.eth1_data = s2.eth1_data ∧ s3.genesis_time = s2.genesis_time ∧
      s3.validators = s2.validators ∧ s3.balances = s2.balances ∧
      s3.randao_mixes = s2.randao_mixes := by
    rcases capellaStep_cases h3 with ⟨_, he⟩ | ⟨_, _, _, he⟩ <;>
      subst he <;> exact ⟨rfl, rfl, rfl, rfl, rfl⟩
  have f4 : r.eth1_data = s3.eth1_data ∧ r.genesis_time = s3.genesis_time ∧
      r.validators = s3.validators ∧ r.balances = s3.balances ∧
      r.randao_mixes = s3.randao_mixes := by
    rcases denebStep_cases h4 with ⟨_, he⟩ | ⟨_, _, _, he⟩ <;>
      subst he <;> exact ⟨rfl, rfl, rfl, rfl, rfl⟩
  exact ⟨by rw [f4.1, f3.1, f2.1, f1.1],
    by rw [f4.2.1, f3.2.1, f2.2.1, f1.2.1],
    by rw [f4.2.2.1, f3.2.2.1, f2.2.2.1, f1.2.2.1],
    by rw [f4.2.2.2.1, f3.2.2.2.1, f2.2.2.2.1, f1.2.2.2.1],
    by rw [f4.2.2.2.2, f3.2.2.2.2, f2.2.2.2.2, f1.2.2.2.2]⟩

lemma applyUpgrades_base_shape {o : Option ExecutionPayloadHeader}
    {spec : ChainSpec} {s0 r : BeaconState}
    (hsh : s0.shape = .base)
    (h : applyUpgrades o spec s0 = .ok r) :
    (latestGenesisFork spec = .base → r = s0) ∧
    (latestGenesisFork spec ≠ .base →
      shapeForkName r.shape = latestGenesisFork spec ∧
      r.fork.previous_version = forkVersion spec (latestGenesisFork spec)) := by
  obtain ⟨s1, s2, s3, h1, h2, h3, h4⟩ := applyUpgrades_elim h
  rcases altairStep_cases h1 with ⟨ha, he1⟩ | ⟨ha, _, he1⟩
  · -- Altair not at genesis
    subst he1
    rcases bellatrixStep_cases h2 with ⟨hb, he2⟩ | ⟨hb, hsh2, _, he2⟩
    · subst he2
      rcases capellaStep_cases h3 with ⟨hc, he3⟩ | ⟨hc, ⟨h0, hsh3⟩, _, he3⟩
      · subst he3
        rcases denebStep_cases h4 with ⟨hd, he4⟩ | ⟨hd, ⟨h0, hsh4⟩, _, he4⟩
        · subst he4
          constructor
          · intro _; rfl
          · intro hne
            exact absurd (by simp [latestGenesisFork, ha, hb, hc, hd]) hne
        · rw [hsh] at hsh4
          exact absurd hsh4 (by simp)
      · rw [hsh] at hsh3
        exact absurd hsh3 (by simp)
    · rw [hsh] at hsh2
      exact absurd hsh2 (by simp)
  · -- Altair at genesis
    rcases bellatrixStep_cases h2 with ⟨hb, he2⟩ | ⟨hb, hsh2, hh2, he2⟩
    · subst he2
      rcases capellaStep_cases h3 with ⟨hc, he3⟩ | ⟨hc, ⟨h0, hsh3⟩, _, he3⟩
      · subst he3
        rcases denebStep_cases h4 with ⟨hd, he4⟩ | ⟨hd, ⟨h0, hsh4⟩, _, he4⟩
        · subst he4
          have hl : latestGenesisFork spec = .altair := by
            simp [latestGenesisFork, ha, hb, hc, hd]
          rw [hl]
          constructor
          · intro hcon; exact absurd hcon (by simp)
          · intro _
            subst he1
            exact ⟨rfl, rfl⟩
        · subst he1
          simp at hsh4
      · subst he1
        exact absurd hsh3 (by simp)
    · rcases capellaStep_cases h3 with ⟨hc, he3⟩ | ⟨hc, ⟨h0, hsh3⟩, hh3, he3⟩
      · subst he3
        rcases denebStep_cases h4 with ⟨hd, he4⟩ | ⟨hd, ⟨h0, hsh4⟩, _, he4⟩
        · subst he4
          have hl : latestGenesisFork spec = .merge := by
            simp [latestGenesisFork, ha, hb, hc, hd]
          rw [hl]
          constructor
          · intro hcon; exact absurd hcon (by simp)
          · intro _
            subst he2
            exact ⟨rfl, rfl⟩
        · subst he2
          exact absurd hsh4 (by simp)
      · rcases denebStep_cases h4 with ⟨hd, he4⟩ | ⟨hd, ⟨h0, hsh4⟩, hh4, he4⟩
        · subst he4
          have hl : latestGenesisFork spec = .capella := by
            simp [latestGenesisFork, hc, hd]
          rw [hl]
          constructor
          · intro hcon; exact absurd hcon (by simp)
          · intro _
            subst he3
            exact ⟨rfl, rfl⟩
        · have hl : latestGenesisFork spec = .deneb := by
            simp [latestGenesisFork, hd]
          rw [hl]
          constructor
          · intro hcon; exact absurd hcon (by simp)
          · intro _
            subst he4
            exact ⟨rfl, rfl⟩

lemma initialize_ok_elim {ebh ts : Nat} {ds : List Deposit}
    {o : Option ExecutionPayloadHeader} {spec : ChainSpec} {s : BeaconState}
    (h : initialize_beacon_state_from_eth1 ebh ts ds o spec = .ok s) :
    ∃ s0 s1, genesisCoreState ebh ts ds spec = .ok s0 ∧
      applyUpgrades o spec s0 = .ok s1 ∧
      s = { s1 with genesis_validators_root := validatorsRoot s1.validators } := by
  unfold initialize_beacon_state_from_eth1 at h
  rcases h0 : genesisCoreState ebh ts ds spec with e | s0
  · simp only [h0] at h
    exact absurd h (by simp)
  · simp only [h0] at h
    rcases h1 : applyUpgrades o spec s0 with e | s1
    · simp only [h1] at h
      exact absurd h (by simp)
    · simp only [h1] at h
      unfold finalizeState build_caches at h
      injection h with h
      exact ⟨s0, s1, rfl, h1, h.symm⟩

/-- C1: whenever some fork activation epoch equals the genesis epoch, any
state returned by initialize_beacon_state_from_eth1 carries the
version-tagged shape of the latest such fork in the fixed order Altair,
Bellatrix, Capella, Deneb, and its fork marker previous version equals
that fork version identifier, never an intermediate one. -/
theorem C1_fork_collapse (ebh ts : Nat) (ds : List Deposit)
    (o : Option ExecutionPayloadHeader) (spec : ChainSpec) (s : BeaconState)
    (hne : latestGenesisFork spec ≠ .base)
    (hok : initialize_beacon_state_from_eth1 ebh ts ds o spec = .ok s) :
    shapeForkName s.shape = latestGenesisFork spec ∧
    s.fork.previous_version = forkVersion spec (latestGenesisFork spec) := by
  obtain ⟨s0, s1, hcore, hup, hs⟩ := initialize_ok_elim hok
  obtain ⟨hbase, _, _, _, _, _⟩ := genesisCoreState_fields hcore
  obtain ⟨hshape, hprev⟩ := (applyUpgrades_base_shape hbase hup).2 hne
  have h1 : s.shape = s1.shape := by rw [hs]
  have h2 : s.fork = s1.fork := by rw [hs]
  exact ⟨by rw [h1, hshape], by rw [h2, hprev]⟩

/-- C5: when no fork activation epoch equals the genesis epoch, any state
returned by initialize_beacon_state_from_eth1 keeps the base shape and
the fork marker installed at construction. -/
theorem C5_base_frame (ebh ts : Nat) (ds : List Deposit)
    (o : Option ExecutionPayloadHeader) (spec : ChainSpec) (s : BeaconState)
    (ha : forkAtGenesis spec.altair_fork_epoch = false)
    (hb : forkAtGenesis spec.bellatrix_fork_epoch = false)
    (hc : forkAtGenesis spec.capella_fork_epoch = false)
    (hd : forkAtGenesis spec.deneb_fork_epoch = false)
    (hok : initialize_beacon_state_from_eth1 ebh ts ds o spec = .ok s) :
    s.shape = .base ∧ s.fork = initialFork spec := by
  obtain ⟨s0, s1, hcore, hup, hs⟩ := initialize_ok_elim hok
  obtain ⟨hbase, hfork, _, _, _, _⟩ := genesisCoreState_fields hcore
  have hl : latestGenesisFork spec = .base := by
    simp [latestGenesisFork, ha, hb, hc, hd]
  have hid : s1 = s0 := (applyUpgrades_base_shape hbase hup).1 hl
  have h1 : s.shape = s1.shape := by rw [hs]
  have h2 : s.fork = s1.fork := by rw [hs]
  exact ⟨by rw [h1, hid, hbase], by rw [h2, hid, hfork]⟩

/-- C9: with an empty deposit list, any state returned by
initialize_beacon_state_from_eth1 keeps the all-zero placeholder as the
anchor deposit root, never overwritten by an accumulator root, and an
anchor deposit count of zero. -/
theorem C9_empty_deposit_anchor (ebh ts : Nat)
    (o : Option ExecutionPayloadHeader) (spec : ChainSpec) (s : BeaconState)
    (hok : initialize_beacon_state_from_eth1 ebh ts [] o spec = .ok s) :
    s.eth1_data.deposit_root = 0 ∧ s.eth1_data.deposit_count = 0 := by
  obtain ⟨s0, s1, hcore, hup, hs⟩ := initialize_ok_elim hok
  obtain ⟨_, _, hcnt, _, hzero, _⟩ := genesisCoreState_fields hcore
  have he : s.eth1_data = s1.eth1_data := by rw [hs]
  have he1 := (applyUpgrades_frame hup).1
  exact ⟨by rw [he, he1, hzero rfl], by rw [he, he1, hcnt]; rfl⟩

/-- C2 counterexample: with two deposits, the anchor record seen by
deposit intake for deposit 0 carries deposit count 2 (the full input
length, written once before the loop), not the running accumulator count
0 + 1 that the claim asserts. -/
theorem C2_counterexample :
    Option.map (fun e => e.deposit_count)
      ((initDepositTrace 7 5 [exDeposit 1 32, exDeposit 2 16] exSpecNoFork).get? 0)
      = some 2 ∧ (2 : Nat) ≠ 0 + 1 :=
  ⟨rfl, by decide⟩

/-- C2 as amended: before deposit intake runs for deposit i the anchor
record holds the accumulator root over leaves 0 to i inclusive together
with the total deposit count N written once before the loop (not the
running count i + 1); for N at most the tree capacity the N pushes
succeed in order and any state returned by the construction carries an
anchor record with count N and the accumulator root after the N pushes. -/
theorem C2_anchor_record (ebh ts : Nat) (ds : List Deposit)
    (o : Option ExecutionPayloadHeader) (spec : ChainSpec)
    (i : Nat) (e : Eth1Data) (s : BeaconState)
    (hN : ds.length ≤ 2 ^ DEPOSIT_TREE_DEPTH)
    (hne : ds ≠ [])
    (htr : (initDepositTrace ebh ts ds spec).get? i = some e)
    (hok : initialize_beacon_state_from_eth1 ebh ts ds o spec = .ok s) :
    e.deposit_count = ds.length ∧
    e.deposit_root = DepositDataTree.root
      (DepositDataTree.create (depositLeaves (ds.take (i + 1))) 0 DEPOSIT_TREE_DEPTH) ∧
    pushLeaves (DepositDataTree.create [] 0 DEPOSIT_TREE_DEPTH) (depositLeaves ds) =
      .ok (DepositDataTree.create (depositLeaves ds) 0 DEPOSIT_TREE_DEPTH) ∧
    s.eth1_data.deposit_count = ds.length ∧
    s.eth1_data.deposit_root = DepositDataTree.root
      (DepositDataTree.create (depositLeaves ds) 0 DEPOSIT_TREE_DEPTH) := by
  have htrace : e.deposit_count = ds.length ∧
      e.deposit_root = DepositDataTree.root
        (DepositDataTree.create (depositLeaves (ds.take (i + 1))) 0 DEPOSIT_TREE_DEPTH) := by
    unfold initDepositTrace at htr
    rcases hgt : eth2_genesis_time ts spec with er | gt
    · simp only [hgt] at htr
      simp at htr
    · simp only [hgt] at htr
      obtain ⟨hc, _, hr⟩ := depositIntakeTrace_get htr
      constructor
      · rw [hc]; rfl
      · rw [hr]
        unfold DepositDataTree.root DepositDataTree.create
        simp
  have hpush : pushLeaves (DepositDataTree.create [] 0 DEPOSIT_TREE_DEPTH)
      (depositLeaves ds) =
      .ok (DepositDataTree.create (depositLeaves ds) 0 DEPOSIT_TREE_DEPTH) := by
    have hlen : (depositLeaves ds).length = ds.length := by
      unfold depositLeaves; simp
    have := @pushLeaves_ok (DepositDataTree.create [] 0 DEPOSIT_TREE_DEPTH)
      (depositLeaves ds) (by unfold DepositDataTree.create; simp [hlen, hN])
    rw [this]
    unfold DepositDataTree.create
    simp
  obtain ⟨s0, s1, hcore, hup, hs⟩ := initialize_ok_elim hok
  obtain ⟨_, _, hcnt, _, _, hroot⟩ := genesisCoreState_fields hcore
  have he : s.eth1_data = s1.eth1_data := by rw [hs]
  have he1 := (applyUpgrades_frame hup).1
  exact ⟨htrace.1, htrace.2, hpush,
    by rw [he, he1, hcnt], by rw [he, he1, hroot hne]⟩

/-- C8: genesis construction is deterministic; identical anchor block
hash, timestamp, deposit list, header override and configuration yield
identical results and identical genesis validators roots. -/
theorem C8_determinism (ebh1 ebh2 ts1 ts2 : Nat) (ds1 ds2 : List Deposit)
    (o1 o2 : Option ExecutionPayloadHeader) (sp1 sp2 : ChainSpec)
    (h1 : ebh1 = ebh2) (h2 : ts1 = ts2) (h3 : ds1 = ds2) (h4 : o1 = o2)
    (h5 : sp1 = sp2) :
    initialize_beacon_state_from_eth1 ebh1 ts1 ds1 o1 sp1 =
      initialize_beacon_state_from_eth1 ebh2 ts2 ds2 o2 sp2 ∧
    Except.map (fun s => s.genesis_validators_root)
        (initialize_beacon_state_from_eth1 ebh1 ts1 ds1 o1 sp1) =
      Except.map (fun s => s.genesis_validators_root)
        (initialize_beacon_state_from_eth1 ebh2 ts2 ds2 o2 sp2) := by
  subst h1; subst h2; subst h3; subst h4; subst h5
  exact ⟨rfl, rfl⟩

/-- Witness for C8 at concrete inputs. -/
theorem C8_witness :
    initialize_beacon_state_from_eth1 7 5 [exDeposit 1 32] none exSpecNoFork =
      initialize_beacon_state_from_eth1 7 5 [exDeposit 1 32] none exSpecNoFork :=
  (C8_determinism 7 7 5 5 [exDeposit 1 32] [exDeposit 1 32] none none
    exSpecNoFork exSpecNoFork rfl rfl rfl rfl rfl).1

lemma bellatrixStep_ignores {spec : ChainSpec} {s : BeaconState}
    {h : ExecutionPayloadHeader}
    (hm : headerMatchesGenesisFork spec h = false) :
    bellatrixStep (some h) spec s = bellatrixStep none spec s := by
  rcases h with hh | hh | hh
  · have hf : forkAtGenesis spec.bellatrix_fork_epoch = false := by
      simpa [headerMatchesGenesisFork] using hm
    unfold bellatrixStep
    rw [hf]
    simp
  · unfold bellatrixStep
    rcases hf : forkAtGenesis spec.bellatrix_fork_epoch
    · simp
    · simp only [if_true]
  · unfold bellatrixStep
    rcases hf : forkAtGenesis spec.bellatrix_fork_epoch
    · simp
    · simp only [if_true]

lemma capellaStep_ignores {spec : ChainSpec} {s : BeaconState}
    {h : ExecutionPayloadHeader}
    (hm : headerMatchesGenesisFork spec h = false) :
    capellaStep (some h) spec s = capellaStep none spec s := by
  rcases h with hh | hh | hh
  · unfold capellaStep
    rcases hf : forkAtGenesis spec.capella_fork_epoch
    · simp
    · simp only [if_true]
  · have hf : forkAtGenesis spec.capella_fork_epoch = false := by
      simpa [headerMatchesGenesisFork] using hm
    unfold capellaStep
    rw [hf]
    simp
  · unfold capellaStep
    rcases hf : forkAtGenesis spec.capella_fork_epoch
    · simp
    · simp only [if_true]

lemma denebStep_ignores {spec : ChainSpec} {s : BeaconState}
    {h : ExecutionPayloadHeader}
    (hm : headerMatchesGenesisFork spec h = false) :
    denebStep (some h) spec s = denebStep none spec s := by
  rcases h with hh | hh | hh
  · unfold denebStep
    rcases hf : forkAtGenesis spec.deneb_fork_epoch
    · simp
    · simp only [if_true]
  · unfold denebStep
    rcases hf : forkAtGenesis spec.deneb_fork_epoch
    · simp
    · simp only [if_true]
  · have hf : forkAtGenesis spec.deneb_fork_epoch = false := by
      simpa [headerMatchesGenesisFork] using hm
    unfold denebStep
    rw [hf]
    simp

lemma applyUpgrades_ignores {spec : ChainSpec} {s0 : BeaconState}
    {h : ExecutionPayloadHeader}
    (hm : headerMatchesGenesisFork spec h = false) :
    applyUpgrades (some h) spec s0 = applyUpgrades none spec s0 := by
  unfold applyUpgrades
  rcases h1 : altairStep spec s0 with e | s1
  · rfl
  · dsimp only
    rw [bellatrixStep_ignores hm]
    rcases h2 : bellatrixStep none spec s1 with e | s2
    · rfl
    · dsimp only
      rw [capellaStep_ignores hm]
      rcases h3 : capellaStep none spec s2 with e | s3
      · rfl
      · dsimp only
        rw [denebStep_ignores hm]

/-- C10: a supplied execution payload header override whose variant does
not match the shape of any fork activated at the genesis epoch is
silently ignored; the construction behaves exactly as if no override had
been supplied, so no error arises from it and the returned header is the
one the upgrade chain produced. -/
theorem C10_mismatched_override_ignored (ebh ts : Nat) (ds : List Deposit)
    (spec : ChainSpec) (h : ExecutionPayloadHeader)
    (hm : headerMatchesGenesisFork spec h = false) :
    initialize_beacon_state_from_eth1 ebh ts ds (some h) spec =
      initialize_beacon_state_from_eth1 ebh ts ds none spec := by
  unfold initialize_beacon_state_from_eth1
  rcases h0 : genesisCoreState ebh ts ds spec with e | s0
  · rfl
  · dsimp only
    rw [applyUpgrades_ignores hm]

/-- Witness for C10: a Deneb-shaped override while the Deneb fork is not
activated at genesis. -/
theorem C10_witness :
    initialize_beacon_state_from_eth1 7 5 [] (some (.deneb 5)) exSpecNoFork =
      initialize_beacon_state_from_eth1 7 5 [] none exSpecNoFork :=
  C10_mismatched_override_ignored 7 5 [] exSpecNoFork (.deneb 5) (by decide)


/-- Witness for C1: all forks at genesis produce the Deneb shape with the
Deneb version as previous version. -/
theorem C1_witness :
    shapeForkName exStateGenesisDeneb.shape = latestGenesisFork exSpecAllForks ∧
    exStateGenesisDeneb.fork.previous_version =
      forkVersion exSpecAllForks (latestGenesisFork exSpecAllForks) :=
  C1_fork_collapse 7 5 [] none exSpecAllForks exStateGenesisDeneb
    (by decide) (by rfl)

/-- Witness for C5: no fork at genesis leaves the base shape and the
construction fork marker. -/
theorem C5_witness :
    exStateGenesisBase.shape = .base ∧
    exStateGenesisBase.fork = initialFork exSpecNoFork :=
  C5_base_frame 7 5 [] none exSpecNoFork exStateGenesisBase
    rfl rfl rfl rfl (by rfl)

/-- Witness for C9: an empty deposit list leaves the zero anchor root and
zero count. -/
theorem C9_witness :
    exStateGenesisBase.eth1_data.deposit_root = 0 ∧
    exStateGenesisBase.eth1_data.deposit_count = 0 :=
  C9_empty_deposit_anchor 7 5 none exSpecNoFork exStateGenesisBase (by rfl)

/-- Witness for C2 as amended, at a one-deposit run. -/
theorem C2_witness :
    exE0.deposit_count = [exDeposit 1 32].length ∧
    exE0.deposit_root = DepositDataTree.root
      (DepositDataTree.create (depositLeaves ([exDeposit 1 32].take (0 + 1)))
        0 DEPOSIT_TREE_DEPTH) ∧
    pushLeaves (DepositDataTree.create [] 0 DEPOSIT_TREE_DEPTH)
        (depositLeaves [exDeposit 1 32]) =
      .ok (DepositDataTree.create (depositLeaves [exDeposit 1 32]) 0 DEPOSIT_TREE_DEPTH) ∧
    exS3One.eth1_data.deposit_count = [exDeposit 1 32].length ∧
    exS3One.eth1_data.deposit_root = DepositDataTree.root
      (DepositDataTree.create (depositLeaves [exDeposit 1 32]) 0 DEPOSIT_TREE_DEPTH) :=
  C2_anchor_record 7 5 [exDeposit 1 32] none exSpecNoFork 0 exE0 exS3One
    (by decide) (by decide) (by rfl) (by rfl)
